import Mathlib

/-!
# Verification of the remote bootstrap fetcher (`docker/cloud_run_entrypoint.sh`)

A shallow embedding of the shell entrypoint script.  Strings are Lean
`String`s; operations on them are defined over `String.data` (lists of
characters).  The HTTP world (the Backblaze authorization call and the
per-URL artifact downloads performed by `curl`) is abstracted by an
`Oracle`; the script's observable behaviour (which fetch attempts happen,
with which header, and whether control transfers to the downstream
entrypoint) is computed by `run`.
-/

namespace CloudRun

/-- The 26 uppercase/lowercase ASCII pairs translated by
`tr '[:upper:]' '[:lower:]'` (C locale). -/
def trLowerPairs : List (Char × Char) :=
  [('A','a'),('B','b'),('C','c'),('D','d'),('E','e'),('F','f'),('G','g'),
   ('H','h'),('I','i'),('J','j'),('K','k'),('L','l'),('M','m'),('N','n'),
   ('O','o'),('P','p'),('Q','q'),('R','r'),('S','s'),('T','t'),('U','u'),
   ('V','v'),('W','w'),('X','x'),('Y','y'),('Z','z')]

/-- Translation of one character by `tr '[:upper:]' '[:lower:]'`. -/
def trLowerChar (c : Char) : Char :=
  match trLowerPairs.find? (fun p => p.1 == c) with
  | some p => p.2
  | none => c

/-- `tr '[:upper:]' '[:lower:]'` applied to a whole string. -/
def trLower (s : String) : String := ⟨s.data.map trLowerChar⟩

/-- `sed 's/^PRE//'`: strip a leading literal `pre` when the string starts
with it, otherwise leave the string unchanged. -/
def sedStrip (pre s : String) : String :=
  if pre.data.isPrefixOf s.data then ⟨s.data.drop pre.data.length⟩ else s

/-- Substring test: does `pat` occur contiguously inside the list?  Embeds
the shell `case "$url" in *PAT*)` glob match. -/
def hasSub (pat : List Char) : List Char → Bool
  | [] => pat.isEmpty
  | c :: rest => pat.isPrefixOf (c :: rest) || hasSub pat rest

/-- `is_backblaze_url` (script lines 57-72): true when the authorized
download base URL is non-empty and the URL starts with it followed by `/`
(`[ "${url#"$BACKBLAZE_DOWNLOAD_URL"/}" != "$url" ]`), or when the URL
contains the substring `backblazeb2.com/` (`case "$url" in *backblazeb2.com/*)`). -/
def is_backblaze_url (downloadUrl url : String) : Bool :=
  (!(downloadUrl == "") && (downloadUrl ++ "/").data.isPrefixOf url.data)
    || hasSub "backblazeb2.com/".data url.data

/-- Characters matched by `[[:space:]]` in the sed regex (the newline case
cannot occur because `tr -d '\n'` ran first, but it is included for
faithfulness). -/
def isSpaceCh (c : Char) : Bool :=
  c == ' ' || c == '\t' || c == '\n' || c == '\r' || c == '\x0b' || c == '\x0c'

/-- Try to match `"FIELD"[[:space:]]*:[[:space:]]*"([^"]*)"` at the head of
`s`, returning the captured value. -/
def matchFieldAt (field s : List Char) : Option (List Char) :=
  let pat := '"' :: (field ++ ['"'])
  if pat.isPrefixOf s then
    match (s.drop pat.length).dropWhile isSpaceCh with
    | ':' :: rest2 =>
      match rest2.dropWhile isSpaceCh with
      | '"' :: rest4 =>
        if (rest4.dropWhile (fun c => !(c == '"'))).isEmpty then none
        else some (rest4.takeWhile (fun c => !(c == '"')))
      | _ => none
    | _ => none
  else none

/-- The match chosen by the greedy leading `.*` of the sed program: the
rightmost position at which the field pattern matches. -/
def lastFieldMatch (field : List Char) : List Char → Option (List Char)
  | [] => none
  | c :: rest =>
    match lastFieldMatch field rest with
    | some v => some v
    | none => matchFieldAt field (c :: rest)

/-- `extract_json_field` (script lines 50-54): delete newlines, then run
`sed -n "s/.*\"FIELD\"[[:space:]]*:[[:space:]]*\"\([^\"]*\)\".*/\1/p"`;
when nothing matches, the command substitution yields the empty string. -/
def extract_json_field (body field : String) : String :=
  match lastFieldMatch field.data (body.data.filter (fun c => !(c == '\n'))) with
  | some v => ⟨v⟩
  | none => ""

/-- Destination filename for a `CONFIG_URL_*` variable (script lines
117-118): strip the prefix, lowercase, append `.yaml`. -/
def configFileName (name : String) : String :=
  trLower (sedStrip "CONFIG_URL_" name) ++ ".yaml"

/-- Destination filename for a `HANDLER_URL_*` variable (script lines
127-128): strip the prefix, lowercase, append `_handler.py`. -/
def handlerFileName (name : String) : String :=
  trLower (sedStrip "HANDLER_URL_" name) ++ "_handler.py"

/-- Script line 39: `CONFIG_DIR` defaults to `/app/config` when unset or
empty. -/
def effConfigDir (raw : String) : String := if raw == "" then "/app/config" else raw

/-- One fetch attempt performed by `fetch_file`: the URL, the destination
path handed to `curl -o`, and the single auth header attached (if any). -/
structure Attempt where
  url : String
  dest : String
  header : Option String
deriving DecidableEq, Repr

/-- Header selection inside `fetch_file` (script lines 99-105): the
explicit `AUTH_HEADER` wins when non-empty; otherwise the Backblaze header
when it is non-empty and `is_backblaze_url` accepts the URL; otherwise no
header. -/
def resolveHeader (authHeader b2Header downloadUrl url : String) : Option String :=
  if !(authHeader == "") then some authHeader
  else if !(b2Header == "") && is_backblaze_url downloadUrl url then some b2Header
  else none

/-- `fetch_file url dest` (script lines 95-106) as the attempt record it
produces. -/
def fetch_file (authHeader b2Header downloadUrl url dest : String) : Attempt :=
  ⟨url, dest, resolveHeader authHeader b2Header downloadUrl url⟩

/-- The environment state the script reads.  The empty string models an
unset variable (the script only ever tests emptiness via `-n`, `-z` and
default substitution). -/
structure Config where
  configDirRaw : String
  authHeader : String
  litellmConfigUrl : String
  backblazeKeyId : String
  b2KeyId : String
  backblazeAppKey : String
  b2AppKey : String
  envVars : List (String × String)
  pythonPath : String
deriving Repr

/-- The HTTP world: the body returned by the authorization call (`none`
models a `curl -f` failure: transport error or non-2xx) and, per artifact
URL, whether its download succeeds (`false` models non-2xx, transport
error, or local write failure). -/
structure Oracle where
  authBody : Option String
  fetchOk : String → Bool

/-- How the script run ends: a non-zero exit, or `exec` into the
downstream entrypoint with the exported `PYTHONPATH` value. -/
inductive Outcome where
  | exitFailure
  | transferred (pythonPath : String)
deriving DecidableEq, Repr

/-- Observable result of a run: how many authorization calls were made,
the registered Backblaze header and download base URL (empty when none),
the full fetch enumeration the script would perform, the fetches actually
attempted, and the final outcome. -/
structure RunResult where
  authCalls : Nat
  b2Header : String
  downloadUrl : String
  planned : List Attempt
  attempts : List Attempt
  outcome : Outcome
deriving DecidableEq, Repr

/-- Script line 41: `BACKBLAZE_KEY_ID` falls back to `B2_KEY_ID`. -/
def effKeyId (c : Config) : String :=
  if c.backblazeKeyId == "" then c.b2KeyId else c.backblazeKeyId

/-- Script line 42: `BACKBLAZE_APPLICATION_KEY` falls back to
`B2_APPLICATION_KEY`. -/
def effAppKey (c : Config) : String :=
  if c.backblazeAppKey == "" then c.b2AppKey else c.backblazeAppKey

/-- An environment entry picked up by the `CONFIG_URL_*` loop (script line
114 `grep` plus the line 115 non-empty value test). -/
def isConfigVar (p : String × String) : Bool :=
  "CONFIG_URL_".data.isPrefixOf p.1.data && !(p.2 == "")

/-- An environment entry picked up by the `HANDLER_URL_*` loop (script
line 124 `grep` plus the line 125 non-empty value test). -/
def isHandlerVar (p : String × String) : Bool :=
  "HANDLER_URL_".data.isPrefixOf p.1.data && !(p.2 == "")

/-- The full sequence of fetches the script performs once authorization
(if any) has finished: the primary config (script lines 109-111), then
the `CONFIG_URL_*` loop (lines 114-121), then the `HANDLER_URL_*` loop
(lines 124-131). -/
def plannedAttempts (c : Config) (b2Header downloadUrl : String) : List Attempt :=
  let dir := effConfigDir c.configDirRaw
  (if !(c.litellmConfigUrl == "") then
      [fetch_file c.authHeader b2Header downloadUrl c.litellmConfigUrl (dir ++ "/config.yaml")]
    else [])
  ++ (c.envVars.filter isConfigVar).map
      (fun p => fetch_file c.authHeader b2Header downloadUrl p.2 (dir ++ "/" ++ configFileName p.1))
  ++ (c.envVars.filter isHandlerVar).map
      (fun p => fetch_file c.authHeader b2Header downloadUrl p.2 (dir ++ "/" ++ handlerFileName p.1))

/-- Sequentially run the fetches under `set -e`: each attempt is recorded;
the first failing `curl` aborts the run, so nothing after it is attempted.
Returns the attempted prefix and whether all of them succeeded. -/
def runFetches (ok : String → Bool) : List Attempt → List Attempt × Bool
  | [] => ([], true)
  | a :: rest =>
    if ok a.url then
      let r := runFetches ok rest
      (a :: r.1, r.2)
    else ([a], false)

/-- The tail of the script after the authorization block: perform all
fetches, then on success export `PYTHONPATH="${CONFIG_DIR}:${PYTHONPATH}"`
(line 140) and `exec` the downstream entrypoint (line 143). -/
def finishFetches (c : Config) (o : Oracle) (authCalls : Nat)
    (b2Header downloadUrl : String) : RunResult :=
  let planned := plannedAttempts c b2Header downloadUrl
  let r := runFetches o.fetchOk planned
  { authCalls := authCalls, b2Header := b2Header, downloadUrl := downloadUrl,
    planned := planned, attempts := r.1,
    outcome :=
      if r.2 then
        Outcome.transferred (effConfigDir c.configDirRaw ++ ":" ++ c.pythonPath)
      else Outcome.exitFailure }

/-- The whole script run (under `set -e`).  Mirrors the authorization
block of lines 75-92: skip it when neither credential half is present;
exit 1 when exactly one is present; otherwise call the authorization
endpoint, extract `authorizationToken` and `downloadUrl`, exit 1 when the
token is empty, and otherwise register the Backblaze header. -/
def run (c : Config) (o : Oracle) : RunResult :=
  if effKeyId c == "" && effAppKey c == "" then
    finishFetches c o 0 "" ""
  else if effKeyId c == "" || effAppKey c == "" then
    { authCalls := 0, b2Header := "", downloadUrl := "",
      planned := [], attempts := [], outcome := Outcome.exitFailure }
  else
    match o.authBody with
    | none =>
      { authCalls := 1, b2Header := "", downloadUrl := "",
        planned := [], attempts := [], outcome := Outcome.exitFailure }
    | some body =>
      let token := extract_json_field body "authorizationToken"
      let dl := extract_json_field body "downloadUrl"
      if token == "" then
        { authCalls := 1, b2Header := "", downloadUrl := dl,
          planned := [], attempts := [], outcome := Outcome.exitFailure }
      else
        finishFetches c o 1 ("Authorization: " ++ token) dl

/-- The character class `[A-Za-z0-9_]` of the path-traversal claim. -/
def isWordChar (c : Char) : Bool :=
  (('A' ≤ c) && (c ≤ 'Z')) || (('a' ≤ c) && (c ≤ 'z'))
    || (('0' ≤ c) && (c ≤ '9')) || (c == '_')

theorem isPrefixOf_append_self (l m : List Char) : l.isPrefixOf (l ++ m) = true := by
  rw [List.isPrefixOf_iff_prefix]
  exact List.prefix_append l m

theorem sedStrip_append (pre x : String) : sedStrip pre (pre ++ x) = x := by
  unfold sedStrip
  rw [String.data_append, isPrefixOf_append_self]
  simp only [if_true]
  rw [List.drop_left]

theorem runFetches_mem (ok : String → Bool) (l : List Attempt) (a : Attempt)
    (h : a ∈ (runFetches ok l).1) : a ∈ l := by
  induction l with
  | nil => simp [runFetches] at h
  | cons b rest ih =>
    by_cases hb : ok b.url
    · simp only [runFetches, hb, if_true] at h
      rcases List.mem_cons.mp h with h | h
      · exact h ▸ List.mem_cons_self b rest
      · exact List.mem_cons_of_mem b (ih h)
    · simp only [runFetches, hb, if_false, Bool.false_eq_true] at h
      rcases List.mem_cons.mp h with h | h
      · exact h ▸ List.mem_cons_self b rest
      · cases h

theorem runFetches_all (ok : String → Bool) (l : List Attempt)
    (h : ∀ a ∈ l, ok a.url = true) : runFetches ok l = (l, true) := by
  induction l with
  | nil => rfl
  | cons b rest ih =>
    have hb := h b (List.mem_cons_self b rest)
    simp [runFetches, hb, ih (fun a ha => h a (List.mem_cons_of_mem b ha))]

theorem runFetches_snd_true (ok : String → Bool) (l : List Attempt)
    (h : (runFetches ok l).2 = true) : (runFetches ok l).1 = l := by
  induction l with
  | nil => rfl
  | cons b rest ih =>
    by_cases hb : ok b.url
    · simp only [runFetches, hb, if_true] at h ⊢
      rw [ih h]
    · simp [runFetches, hb] at h

theorem runFetches_fail (ok : String → Bool) (l : List Attempt)
    (h : ∃ a ∈ l, ok a.url = false) :
    runFetches ok l =
      (l.takeWhile (fun a => ok a.url) ++ (l.dropWhile (fun a => ok a.url)).take 1,
        false) := by
  induction l with
  | nil => simp at h
  | cons b rest ih =>
    by_cases hb : ok b.url
    · have hrest : ∃ a ∈ rest, ok a.url = false := by
        rcases h with ⟨a, ha, hfa⟩
        rcases List.mem_cons.mp ha with rfl | ha'
        · rw [hb] at hfa; cases hfa
        · exact ⟨a, ha', hfa⟩
      simp [runFetches, hb, ih hrest]
    · have hb' : ok b.url = false := by
        cases hv : ok b.url
        · rfl
        · exact absurd hv hb
      simp [runFetches, hb']

theorem mem_planned_header (c : Config) (b2 dl : String) (a : Attempt)
    (h : a ∈ plannedAttempts c b2 dl) :
    a.header = resolveHeader c.authHeader b2 dl a.url := by
  unfold plannedAttempts at h
  simp only [List.mem_append, List.mem_map, List.mem_filter] at h
  rcases h with (h | ⟨p, _, hp⟩) | ⟨p, _, hp⟩
  · by_cases hl : c.litellmConfigUrl == ""
    · simp [hl] at h
    · simp only [hl, Bool.not_false, if_true] at h
      rcases List.mem_singleton.mp h with rfl
      rfl
  · rcases hp with rfl
    rfl
  · rcases hp with rfl
    rfl

theorem finishFetches_header (c : Config) (o : Oracle) (n : Nat) (b2 dl : String)
    (a : Attempt) (h : a ∈ (finishFetches c o n b2 dl).attempts) :
    a.header = resolveHeader c.authHeader b2 dl a.url := by
  unfold finishFetches at h
  exact mem_planned_header c b2 dl a (runFetches_mem _ _ _ h)

theorem run_cases (c : Config) (o : Oracle) :
    (∃ n b2 dl, run c o = finishFetches c o n b2 dl)
    ∨ ((run c o).attempts = [] ∧ (run c o).planned = []
        ∧ (run c o).outcome = Outcome.exitFailure) := by
  unfold run
  split
  · exact Or.inl ⟨0, "", "", rfl⟩
  · split
    · exact Or.inr ⟨rfl, rfl, rfl⟩
    · split
      · exact Or.inr ⟨rfl, rfl, rfl⟩
      · dsimp only
        split
        · exact Or.inr ⟨rfl, rfl, rfl⟩
        · exact Or.inl ⟨1, _, _, rfl⟩

theorem run_attempts_header (c : Config) (o : Oracle) (a : Attempt)
    (ha : a ∈ (run c o).attempts) :
    a.header = resolveHeader c.authHeader (run c o).b2Header (run c o).downloadUrl a.url := by
  rcases run_cases c o with ⟨n, b2, dl, heq⟩ | ⟨hemp, _, _⟩
  · rw [heq] at ha ⊢
    exact finishFetches_header c o n b2 dl a ha
  · rw [hemp] at ha
    cases ha

/-- C1: for every fetched URL, the attached header follows strict
precedence: a non-empty `AUTH_HEADER` is carried verbatim on every fetch
regardless of the URL (even when a Backblaze header is registered and its
predicate matches); otherwise a registered (non-empty) Backblaze header is
carried exactly when `is_backblaze_url` accepts the URL; otherwise the
fetch carries no authentication header. -/
theorem auth_header_precedence (c : Config) (o : Oracle) (a : Attempt)
    (ha : a ∈ (run c o).attempts) :
    (c.authHeader ≠ "" → a.header = some c.authHeader) ∧
    (c.authHeader = "" → (run c o).b2Header ≠ "" →
      is_backblaze_url (run c o).downloadUrl a.url = true →
      a.header = some ((run c o).b2Header)) ∧
    (c.authHeader = "" →
      ((run c o).b2Header = "" ∨ is_backblaze_url (run c o).downloadUrl a.url = false) →
      a.header = none) := by
  rw [run_attempts_header c o a ha]
  unfold resolveHeader
  refine ⟨fun hA => ?_, fun hA hb2 hbb => ?_, fun hA hor => ?_⟩
  · simp [hA]
  · simp [hA, hb2, hbb]
  · rcases hor with hb2 | hbb
    · simp [hA, hb2]
    · simp [hA, hbb]

theorem auth_header_precedence_witness :
    (Attempt.mk "https://x/custom.py" "/app/config/custom_handler.py"
        (some "Authorization: Bearer t1")).header = some "Authorization: Bearer t1" :=
  (auth_header_precedence
    (Config.mk "" "Authorization: Bearer t1" "" "" "" "" ""
      [("HANDLER_URL_CUSTOM", "https://x/custom.py")] "")
    (Oracle.mk none (fun _ => true))
    (Attempt.mk "https://x/custom.py" "/app/config/custom_handler.py"
      (some "Authorization: Bearer t1"))
    (by decide)).1 (by decide)

/-- C2: if any single fetch in the enumeration fails (`curl -f` returns
non-zero for a non-2xx status, a transport error, or a write failure), the
run exits non-zero and control never transfers; the attempted fetches are
exactly the successful ones before the first failure plus that failing
fetch, so no subsequent fetch is attempted and there is no retry. -/
theorem fetch_failure_aborts (c : Config) (o : Oracle)
    (h : ∃ a ∈ (run c o).planned, o.fetchOk a.url = false) :
    (run c o).outcome = Outcome.exitFailure ∧
    (run c o).attempts =
      (run c o).planned.takeWhile (fun a => o.fetchOk a.url)
        ++ ((run c o).planned.dropWhile (fun a => o.fetchOk a.url)).take 1 := by
  rcases run_cases c o with ⟨n, b2, dl, heq⟩ | ⟨ha, hp, ho⟩
  · rw [heq] at h ⊢
    unfold finishFetches at h ⊢
    dsimp only at h ⊢
    rw [runFetches_fail o.fetchOk _ h]
    simp
  · rw [hp] at h
    simp at h

theorem fetch_failure_aborts_witness :
    (run (Config.mk "" "" "https://x/y/config.yaml" "" "" "" ""
        [("CONFIG_URL_TEAMS", "https://x/t.yaml")] "")
      (Oracle.mk none (fun u => !(u == "https://x/y/config.yaml")))).outcome =
        Outcome.exitFailure ∧
    (run (Config.mk "" "" "https://x/y/config.yaml" "" "" "" ""
        [("CONFIG_URL_TEAMS", "https://x/t.yaml")] "")
      (Oracle.mk none (fun u => !(u == "https://x/y/config.yaml")))).attempts =
      (run (Config.mk "" "" "https://x/y/config.yaml" "" "" "" ""
          [("CONFIG_URL_TEAMS", "https://x/t.yaml")] "")
        (Oracle.mk none (fun u => !(u == "https://x/y/config.yaml")))).planned.takeWhile
          (fun a => (Oracle.mk none (fun u => !(u == "https://x/y/config.yaml"))).fetchOk a.url)
        ++ ((run (Config.mk "" "" "https://x/y/config.yaml" "" "" "" ""
            [("CONFIG_URL_TEAMS", "https://x/t.yaml")] "")
          (Oracle.mk none (fun u => !(u == "https://x/y/config.yaml")))).planned.dropWhile
            (fun a => (Oracle.mk none (fun u => !(u == "https://x/y/config.yaml"))).fetchOk a.url)).take 1 :=
  fetch_failure_aborts
    (Config.mk "" "" "https://x/y/config.yaml" "" "" "" ""
      [("CONFIG_URL_TEAMS", "https://x/t.yaml")] "")
    (Oracle.mk none (fun u => !(u == "https://x/y/config.yaml")))
    (by decide)

/-- C3: when exactly one Backblaze credential half is present after
resolving the `BACKBLAZE_*` and `B2_*` aliases, the run exits non-zero
before any HTTP call: zero authorization calls and zero fetch attempts. -/
theorem lone_credential_half_aborts (c : Config) (o : Oracle)
    (h : (effKeyId c = "" ∧ effAppKey c ≠ "") ∨ (effKeyId c ≠ "" ∧ effAppKey c = "")) :
    (run c o).outcome = Outcome.exitFailure ∧ (run c o).authCalls = 0 ∧
    (run c o).attempts = [] ∧ (run c o).planned = [] := by
  have h1 : (effKeyId c == "" && effAppKey c == "") = false := by
    rcases h with ⟨hk, ha⟩ | ⟨hk, ha⟩ <;> simp [hk, ha]
  have h2 : (effKeyId c == "" || effAppKey c == "") = true := by
    rcases h with ⟨hk, ha⟩ | ⟨hk, ha⟩ <;> simp [hk, ha]
  unfold run
  simp [h1, h2]

theorem lone_credential_half_aborts_witness :
    (run (Config.mk "" "" "https://x/y/config.yaml" "k" "" "" "" [] "")
        (Oracle.mk (some "\x7b\"authorizationToken\": \"t\"\x7d") (fun _ => true))).outcome =
      Outcome.exitFailure ∧
    (run (Config.mk "" "" "https://x/y/config.yaml" "k" "" "" "" [] "")
        (Oracle.mk (some "\x7b\"authorizationToken\": \"t\"\x7d") (fun _ => true))).authCalls = 0 ∧
    (run (Config.mk "" "" "https://x/y/config.yaml" "k" "" "" "" [] "")
        (Oracle.mk (some "\x7b\"authorizationToken\": \"t\"\x7d") (fun _ => true))).attempts = [] ∧
    (run (Config.mk "" "" "https://x/y/config.yaml" "k" "" "" "" [] "")
        (Oracle.mk (some "\x7b\"authorizationToken\": \"t\"\x7d") (fun _ => true))).planned = [] :=
  lone_credential_half_aborts
    (Config.mk "" "" "https://x/y/config.yaml" "k" "" "" "" [] "")
    (Oracle.mk (some "\x7b\"authorizationToken\": \"t\"\x7d") (fun _ => true))
    (Or.inr (by decide))

/-- C4: with both credential halves present, if the authorization response
body lacks the `authorizationToken` field (extraction yields the empty
string), the run exits non-zero after exactly the one authorization call
and with no artifact fetch attempted. -/
theorem missing_token_aborts (c : Config) (o : Oracle) (body : String)
    (hk : effKeyId c ≠ "") (ha : effAppKey c ≠ "")
    (hb : o.authBody = some body)
    (ht : extract_json_field body "authorizationToken" = "") :
    (run c o).outcome = Outcome.exitFailure ∧ (run c o).attempts = [] ∧
    (run c o).planned = [] ∧ (run c o).authCalls = 1 := by
  unfold run
  simp [hk, ha, hb, ht]

theorem missing_token_aborts_witness :
    (run (Config.mk "" "" "https://x/y/config.yaml" "k" "" "s" ""
        [("CONFIG_URL_TEAMS", "https://x/t.yaml")] "")
      (Oracle.mk (some "\x7b\"downloadUrl\": \"https://f002.backblazeb2.com\"\x7d")
        (fun _ => true))).outcome = Outcome.exitFailure ∧
    (run (Config.mk "" "" "https://x/y/config.yaml" "k" "" "s" ""
        [("CONFIG_URL_TEAMS", "https://x/t.yaml")] "")
      (Oracle.mk (some "\x7b\"downloadUrl\": \"https://f002.backblazeb2.com\"\x7d")
        (fun _ => true))).attempts = [] ∧
    (run (Config.mk "" "" "https://x/y/config.yaml" "k" "" "s" ""
        [("CONFIG_URL_TEAMS", "https://x/t.yaml")] "")
      (Oracle.mk (some "\x7b\"downloadUrl\": \"https://f002.backblazeb2.com\"\x7d")
        (fun _ => true))).planned = [] ∧
    (run (Config.mk "" "" "https://x/y/config.yaml" "k" "" "s" ""
        [("CONFIG_URL_TEAMS", "https://x/t.yaml")] "")
      (Oracle.mk (some "\x7b\"downloadUrl\": \"https://f002.backblazeb2.com\"\x7d")
        (fun _ => true))).authCalls = 1 :=
  missing_token_aborts
    (Config.mk "" "" "https://x/y/config.yaml" "k" "" "s" ""
      [("CONFIG_URL_TEAMS", "https://x/t.yaml")] "")
    (Oracle.mk (some "\x7b\"downloadUrl\": \"https://f002.backblazeb2.com\"\x7d")
      (fun _ => true))
    "\x7b\"downloadUrl\": \"https://f002.backblazeb2.com\"\x7d"
    (by decide) (by decide) rfl (by decide)

/-- C5: the resolver maps `CONFIG_URL_<X>` to `lowercase(X) ++ ".yaml"` and
`HANDLER_URL_<X>` to `lowercase(X) ++ "_handler.py"` (so the destination
depends on the variable name only through its lowercasing and not on the
URL, which the filename functions do not even take), and a non-empty
`LITELLM_CONFIG_URL` is fetched first, to the fixed filename `config.yaml`
under the config directory. -/
theorem destination_filenames (x y : String) (c : Config) (b2 dl : String) :
    configFileName ("CONFIG_URL_" ++ x) = trLower x ++ ".yaml" ∧
    handlerFileName ("HANDLER_URL_" ++ x) = trLower x ++ "_handler.py" ∧
    (trLower x = trLower y →
      configFileName ("CONFIG_URL_" ++ x) = configFileName ("CONFIG_URL_" ++ y) ∧
      handlerFileName ("HANDLER_URL_" ++ x) = handlerFileName ("HANDLER_URL_" ++ y)) ∧
    (c.litellmConfigUrl ≠ "" →
      ((plannedAttempts c b2 dl).take 1).map Attempt.dest =
        [effConfigDir c.configDirRaw ++ "/config.yaml"]) := by
  have hc : ∀ z : String, configFileName ("CONFIG_URL_" ++ z) = trLower z ++ ".yaml" := by
    intro z; unfold configFileName; rw [sedStrip_append]
  have hh : ∀ z : String, handlerFileName ("HANDLER_URL_" ++ z) = trLower z ++ "_handler.py" := by
    intro z; unfold handlerFileName; rw [sedStrip_append]
  refine ⟨hc x, hh x, fun hxy => ⟨?_, ?_⟩, fun hl => ?_⟩
  · rw [hc x, hc y, hxy]
  · rw [hh x, hh y, hxy]
  · unfold plannedAttempts
    have hl' : (c.litellmConfigUrl == "") = false := by
      cases hv : c.litellmConfigUrl == ""
      · rfl
      · exact absurd (by simpa using hv) hl
    simp [hl', fetch_file]

theorem destination_filenames_witness :
    configFileName ("CONFIG_URL_" ++ "TEAMS") = trLower "TEAMS" ++ ".yaml" ∧
    ((plannedAttempts (Config.mk "" "" "https://x/y/config.yaml" "" "" "" "" [] "") "" "").take 1).map
        Attempt.dest =
      [effConfigDir ("" : String) ++ "/config.yaml"] :=
  And.intro
    (destination_filenames "TEAMS" "TEAMS"
      (Config.mk "" "" "https://x/y/config.yaml" "" "" "" "" [] "") "" "").1
    ((destination_filenames "TEAMS" "TEAMS"
      (Config.mk "" "" "https://x/y/config.yaml" "" "" "" "" [] "") "" "").2.2.2 (by decide))

/-- Relating the executable substring test to the `IsInfix` relation. -/
theorem hasSub_iff (pat l : List Char) : hasSub pat l = true ↔ pat <:+: l := by
  induction l with
  | nil =>
    rw [show hasSub pat [] = pat.isEmpty from rfl]
    rw [List.infix_nil, List.isEmpty_iff]
  | cons c rest ih =>
    rw [show hasSub pat (c :: rest) = (pat.isPrefixOf (c :: rest) || hasSub pat rest) from rfl]
    rw [Bool.or_eq_true, List.isPrefixOf_iff_prefix, ih, List.infix_cons_iff]

/-- C6 as stated fails on the code: this URL equals the authorized base
download URL (hence is a prefix-match of it) and contains the provider
domain substring `backblazeb2.com`, yet `is_backblaze_url` rejects it
(the code requires the base URL to be followed by `/`, and the glob
pattern requires `backblazeb2.com/` with a trailing slash), so the fetch
would carry no third-party header. -/
theorem backblaze_predicate_counterexample :
    is_backblaze_url "https://f002.backblazeb2.com" "https://f002.backblazeb2.com" = false ∧
    ("https://f002.backblazeb2.com" : String).data.isPrefixOf
      ("https://f002.backblazeb2.com" : String).data = true ∧
    hasSub ("backblazeb2.com" : String).data
      ("https://f002.backblazeb2.com" : String).data = true ∧
    resolveHeader "" "Authorization: tok" "https://f002.backblazeb2.com"
      "https://f002.backblazeb2.com" = none := by
  refine ⟨by decide, by decide, by decide, by decide⟩

/-- C6 amended: after successful authorization, `is_backblaze_url` accepts
a URL if and only if either (a) the base download URL is non-empty and the
URL starts with the base download URL followed by `/`, or (b) the URL
contains the substring `backblazeb2.com/` (provider domain followed by a
slash); a URL satisfying neither condition is fetched without the
third-party header. -/
theorem backblaze_predicate_characterization (downloadUrl url b2 : String) :
    (is_backblaze_url downloadUrl url = true ↔
      ((downloadUrl ≠ "" ∧ (downloadUrl ++ "/").data <+: url.data) ∨
        ("backblazeb2.com/" : String).data <:+: url.data)) ∧
    (¬ ((downloadUrl ≠ "" ∧ (downloadUrl ++ "/").data <+: url.data) ∨
        ("backblazeb2.com/" : String).data <:+: url.data) →
      resolveHeader "" b2 downloadUrl url = none) := by
  have hiff : is_backblaze_url downloadUrl url = true ↔
      ((downloadUrl ≠ "" ∧ (downloadUrl ++ "/").data <+: url.data) ∨
        ("backblazeb2.com/" : String).data <:+: url.data) := by
    unfold is_backblaze_url
    rw [Bool.or_eq_true, Bool.and_eq_true, hasSub_iff, List.isPrefixOf_iff_prefix]
    simp
  refine ⟨hiff, fun hn => ?_⟩
  have hfalse : is_backblaze_url downloadUrl url = false := by
    cases hv : is_backblaze_url downloadUrl url
    · rfl
    · exact absurd (hiff.mp hv) hn
  unfold resolveHeader
  simp [hfalse]

theorem backblaze_predicate_characterization_witness :
    resolveHeader "" "Authorization: tok" "https://dl.example.com"
      "https://unrelated.example/x" = none :=
  (backblaze_predicate_characterization "https://dl.example.com"
    "https://unrelated.example/x" "Authorization: tok").2 (by decide)

theorem countP_or_of_disjoint {α} (p q : α → Bool) (l : List α)
    (h : ∀ a ∈ l, ¬(p a = true ∧ q a = true)) :
    l.countP (fun a => p a || q a) = l.countP p + l.countP q := by
  induction l with
  | nil => rfl
  | cons b rest ih =>
    have ih' := ih (fun a ha => h a (List.mem_cons_of_mem b ha))
    have hb := h b (List.mem_cons_self b rest)
    simp only [List.countP_cons, ih']
    cases hp : p b <;> cases hq : q b <;> simp_all <;> omega

theorem config_handler_disjoint (p : String × String) :
    ¬(isConfigVar p = true ∧ isHandlerVar p = true) := by
  rintro ⟨hc, hh⟩
  unfold isConfigVar at hc
  unfold isHandlerVar at hh
  rw [Bool.and_eq_true] at hc hh
  rcases (List.isPrefixOf_iff_prefix.mp hc.1 : _ <+: _) with ⟨t1, ht1⟩
  rcases (List.isPrefixOf_iff_prefix.mp hh.1 : _ <+: _) with ⟨t2, ht2⟩
  have hC : p.1.data.head? = some 'C' := by rw [← ht1]; rfl
  have hH : p.1.data.head? = some 'H' := by rw [← ht2]; rfl
  rw [hC] at hH
  exact absurd hH (by decide)

theorem plannedAttempts_length (c : Config) (b2 dl : String) :
    (plannedAttempts c b2 dl).length =
      (if c.litellmConfigUrl = "" then 0 else 1)
        + c.envVars.countP (fun p => isConfigVar p || isHandlerVar p) := by
  unfold plannedAttempts
  rw [countP_or_of_disjoint isConfigVar isHandlerVar c.envVars
    (fun a _ => config_handler_disjoint a)]
  simp only [List.length_append, List.length_map, ← List.countP_eq_length_filter]
  by_cases hl : c.litellmConfigUrl = ""
  · simp [hl]
  · have hl' : (c.litellmConfigUrl == "") = false := by
      cases hv : c.litellmConfigUrl == ""
      · rfl
      · exact absurd (by simpa using hv) hl
    simp [hl, hl']
    omega

theorem run_transferred_attempts (c : Config) (o : Oracle)
    (h : ∃ pp, (run c o).outcome = Outcome.transferred pp) :
    (run c o).attempts = (run c o).planned := by
  rcases run_cases c o with ⟨n, b2, dl, heq⟩ | ⟨_, _, ho⟩
  · rw [heq] at h ⊢
    unfold finishFetches at h ⊢
    dsimp only at h ⊢
    rcases h with ⟨pp, hpp⟩
    by_cases hs : (runFetches o.fetchOk (plannedAttempts c b2 dl)).2 = true
    · exact runFetches_snd_true _ _ hs
    · rw [if_neg hs] at hpp
      cases hpp
  · rcases h with ⟨pp, hpp⟩
    rw [ho] at hpp
    cases hpp

/-- C7 as stated fails on the code: here a single environment variable
matches the `CONFIG_URL_` prefix, the bootstrap runs to completion, yet
zero fetch attempts occur, because the variable's value is the empty
string and the loop skips empty values. -/
theorem exhaustive_enumeration_counterexample :
    ((Config.mk "" "" "" "" "" "" "" [("CONFIG_URL_A", "")] "").envVars.countP
        (fun p => ("CONFIG_URL_" : String).data.isPrefixOf p.1.data
          || ("HANDLER_URL_" : String).data.isPrefixOf p.1.data)) = 1 ∧
    (run (Config.mk "" "" "" "" "" "" "" [("CONFIG_URL_A", "")] "")
        (Oracle.mk none (fun _ => true))).attempts.length = 0 ∧
    (run (Config.mk "" "" "" "" "" "" "" [("CONFIG_URL_A", "")] "")
        (Oracle.mk none (fun _ => true))).outcome =
      Outcome.transferred "/app/config:" := by
  refine ⟨by decide, by decide, by decide⟩

/-- C7 amended: when the bootstrap runs to completion, the enumeration is
exhaustive over the prefix-matching environment variables **with non-empty
values**: each such variable yields exactly one fetch attempt (plus one
for a non-empty `LITELLM_CONFIG_URL`), and the count is invariant under
permutation of the environment enumeration order. -/
theorem exhaustive_enumeration (c : Config) (o : Oracle)
    (h : ∃ pp, (run c o).outcome = Outcome.transferred pp) :
    (run c o).attempts.length =
      (if c.litellmConfigUrl = "" then 0 else 1)
        + c.envVars.countP (fun p => isConfigVar p || isHandlerVar p) ∧
    ∀ env₂ : List (String × String), env₂.Perm c.envVars →
      (∃ pp₂, (run { c with envVars := env₂ } o).outcome = Outcome.transferred pp₂) →
      (run { c with envVars := env₂ } o).attempts.length = (run c o).attempts.length := by
  have key : ∀ c' : Config, (∃ pp, (run c' o).outcome = Outcome.transferred pp) →
      (run c' o).attempts.length =
        (if c'.litellmConfigUrl = "" then 0 else 1)
          + c'.envVars.countP (fun p => isConfigVar p || isHandlerVar p) := by
    intro c' h'
    rw [run_transferred_attempts c' o h']
    rcases run_cases c' o with ⟨n, b2, dl, heq⟩ | ⟨_, _, ho⟩
    · rw [heq]
      exact plannedAttempts_length c' b2 dl
    · rcases h' with ⟨pp, hpp⟩
      rw [ho] at hpp
      cases hpp
  refine ⟨key c h, fun env₂ hperm h₂ => ?_⟩
  rw [key c h, key { c with envVars := env₂ } h₂]
  rw [hperm.countP_eq]

theorem exhaustive_enumeration_witness :
    (run (Config.mk "" "" "https://x/y/config.yaml" "" "" "" ""
        [("CONFIG_URL_TEAMS", "https://x/t.yaml"), ("OTHER", "z"),
          ("HANDLER_URL_B", "https://x/b.py"), ("CONFIG_URL_E", "")] "")
      (Oracle.mk none (fun _ => true))).attempts.length =
      (if (Config.mk "" "" "https://x/y/config.yaml" "" "" "" ""
          [("CONFIG_URL_TEAMS", "https://x/t.yaml"), ("OTHER", "z"),
            ("HANDLER_URL_B", "https://x/b.py"), ("CONFIG_URL_E", "")] "").litellmConfigUrl = ""
        then 0 else 1)
      + (Config.mk "" "" "https://x/y/config.yaml" "" "" "" ""
          [("CONFIG_URL_TEAMS", "https://x/t.yaml"), ("OTHER", "z"),
            ("HANDLER_URL_B", "https://x/b.py"), ("CONFIG_URL_E", "")] "").envVars.countP
          (fun p => isConfigVar p || isHandlerVar p) :=
  (exhaustive_enumeration
    (Config.mk "" "" "https://x/y/config.yaml" "" "" "" ""
      [("CONFIG_URL_TEAMS", "https://x/t.yaml"), ("OTHER", "z"),
        ("HANDLER_URL_B", "https://x/b.py"), ("CONFIG_URL_E", "")] "")
    (Oracle.mk none (fun _ => true))
    ⟨"/app/config:", by decide⟩).1

theorem trLowerChar_ne_slash (c : Char) (h : isWordChar c = true) :
    trLowerChar c ≠ '/' := by
  cases hf : trLowerPairs.find? (fun p => p.1 == c) with
  | none =>
    have hv : trLowerChar c = c := by
      unfold trLowerChar
      rw [hf]
    intro hc
    rw [hv] at hc
    rw [hc] at h
    exact absurd h (by decide)
  | some p =>
    have hv : trLowerChar c = p.2 := by
      unfold trLowerChar
      rw [hf]
    have hp : p ∈ trLowerPairs := List.mem_of_find?_eq_some hf
    have hall : ∀ q ∈ trLowerPairs, ¬ q.2 = '/' := by decide
    rw [hv]
    exact hall p hp

theorem sedStrip_mem (pre s : String) (ch : Char)
    (h : ch ∈ (sedStrip pre s).data) : ch ∈ s.data := by
  unfold sedStrip at h
  by_cases hp : pre.data.isPrefixOf s.data
  · rw [if_pos hp] at h
    exact List.mem_of_mem_drop h
  · rwa [if_neg hp] at h

theorem configFileName_no_slash (n : String)
    (h : ∀ ch ∈ n.data, isWordChar ch = true) :
    '/' ∉ (configFileName n).data := by
  unfold configFileName
  rw [String.data_append]
  intro hmem
  rcases List.mem_append.mp hmem with hm | hm
  · rcases List.mem_map.mp hm with ⟨ch, hch, hmap⟩
    exact trLowerChar_ne_slash ch (h ch (sedStrip_mem _ _ ch hch)) hmap
  · exact absurd hm (by decide)

theorem handlerFileName_no_slash (n : String)
    (h : ∀ ch ∈ n.data, isWordChar ch = true) :
    '/' ∉ (handlerFileName n).data := by
  unfold handlerFileName
  rw [String.data_append]
  intro hmem
  rcases List.mem_append.mp hmem with hm | hm
  · rcases List.mem_map.mp hm with ⟨ch, hch, hmap⟩
    exact trLowerChar_ne_slash ch (h ch (sedStrip_mem _ _ ch hch)) hmap
  · exact absurd hm (by decide)

theorem append_ne_short (s t u : String) (hlen : u.length < t.length) :
    s ++ t ≠ u := by
  intro h
  have := congrArg String.length h
  rw [String.length_append] at this
  omega

/-- C8: under the invariant that environment-variable names use only
characters in `[A-Za-z0-9_]`, every planned artifact destination is
`CONFIG_DIR ++ "/" ++ f` for a filename `f` that contains no path
separator and is not a traversal component, so no write escapes the
configured directory. -/
theorem no_path_escape (c : Config) (b2 dl : String)
    (h : ∀ p ∈ c.envVars, ∀ ch ∈ p.1.data, isWordChar ch = true) :
    ∀ a ∈ plannedAttempts c b2 dl, ∃ f : String,
      a.dest = effConfigDir c.configDirRaw ++ "/" ++ f ∧
      '/' ∉ f.data ∧ f ≠ ".." ∧ f ≠ "." := by
  intro a ha
  unfold plannedAttempts at ha
  simp only [List.mem_append, List.mem_map, List.mem_filter] at ha
  rcases ha with (ha | ⟨p, hp, rfl⟩) | ⟨p, hp, rfl⟩
  · by_cases hl : (c.litellmConfigUrl == "") = true
    · simp [hl] at ha
    · rw [Bool.not_eq_true] at hl
      simp only [hl, Bool.not_false, if_true, List.mem_singleton] at ha
      subst ha
      refine ⟨"config.yaml", ?_, by decide, by decide, by decide⟩
      show effConfigDir c.configDirRaw ++ "/config.yaml" = _
      rw [String.append_assoc]
      rfl
  · refine ⟨configFileName p.1, rfl, configFileName_no_slash p.1 (h p hp.1), ?_, ?_⟩
    · exact append_ne_short _ ".yaml" ".." (by decide)
    · exact append_ne_short _ ".yaml" "." (by decide)
  · refine ⟨handlerFileName p.1, rfl, handlerFileName_no_slash p.1 (h p hp.1), ?_, ?_⟩
    · exact append_ne_short _ "_handler.py" ".." (by decide)
    · exact append_ne_short _ "_handler.py" "." (by decide)

theorem no_path_escape_witness :
    ∃ f : String,
      (Attempt.mk "https://x/t.yaml" "/app/config/teams.yaml" none).dest =
        effConfigDir ("" : String) ++ "/" ++ f ∧
      '/' ∉ f.data ∧ f ≠ ".." ∧ f ≠ "." :=
  no_path_escape
    (Config.mk "" "" "" "" "" "" "" [("CONFIG_URL_TEAMS", "https://x/t.yaml")] "")
    "" "" (by decide)
    (Attempt.mk "https://x/t.yaml" "/app/config/teams.yaml" none) (by decide)

theorem takeWhile_append_stop (p : Char → Bool) (l₁ l₂ : List Char) (a : Char)
    (h : ∀ x ∈ l₁, p x = true) (ha : p a = false) :
    (l₁ ++ a :: l₂).takeWhile p = l₁ ∧ (l₁ ++ a :: l₂).dropWhile p = a :: l₂ := by
  induction l₁ with
  | nil => simp [List.takeWhile_cons, List.dropWhile_cons, ha]
  | cons b t ih =>
    have hb := h b (List.mem_cons_self b t)
    have iht := ih (fun x hx => h x (List.mem_cons_of_mem b hx))
    simp [List.takeWhile_cons, List.dropWhile_cons, hb, iht.1, iht.2]

/-- C9: whenever control transfers to the downstream entrypoint, the
exported `PYTHONPATH` is exactly `CONFIG_DIR`, a colon, then the
pre-existing `PYTHONPATH` value unchanged; in particular (when
`CONFIG_DIR` itself contains no colon) its first colon-separated entry is
`CONFIG_DIR` and what follows the first colon is the old value. -/
theorem pythonpath_prepends_config_dir (c : Config) (o : Oracle) (pp : String)
    (h : (run c o).outcome = Outcome.transferred pp) :
    pp = effConfigDir c.configDirRaw ++ ":" ++ c.pythonPath ∧
    (':' ∉ (effConfigDir c.configDirRaw).data →
      pp.data.takeWhile (fun ch => !(ch == ':')) = (effConfigDir c.configDirRaw).data ∧
      (pp.data.dropWhile (fun ch => !(ch == ':'))).tail = c.pythonPath.data) := by
  have hpp : pp = effConfigDir c.configDirRaw ++ ":" ++ c.pythonPath := by
    rcases run_cases c o with ⟨n, b2, dl, heq⟩ | ⟨_, _, ho⟩
    · rw [heq] at h
      unfold finishFetches at h
      dsimp only at h
      by_cases hs : (runFetches o.fetchOk (plannedAttempts c b2 dl)).2 = true
      · rw [if_pos hs] at h
        cases h
        rfl
      · rw [if_neg hs] at h
        cases h
    · rw [ho] at h
      cases h
  subst hpp
  refine ⟨rfl, fun hcolon => ?_⟩
  have hdata : (effConfigDir c.configDirRaw ++ ":" ++ c.pythonPath).data
      = (effConfigDir c.configDirRaw).data ++ ':' :: c.pythonPath.data := by
    rw [String.data_append, String.data_append]
    rw [List.append_assoc]
    rfl
  rw [hdata]
  have hall : ∀ x ∈ (effConfigDir c.configDirRaw).data, (!(x == ':')) = true := by
    intro x hx
    cases hv : x == ':'
    · rfl
    · exact absurd (beq_iff_eq.mp hv ▸ hx) hcolon
  have hstop := takeWhile_append_stop (fun ch => !(ch == ':'))
    (effConfigDir c.configDirRaw).data c.pythonPath.data ':' hall (by decide)
  rw [hstop.1, hstop.2]
  exact ⟨rfl, rfl⟩

theorem pythonpath_prepends_config_dir_witness :
    ("/app/config:/old" : String) = effConfigDir ("" : String) ++ ":" ++ "/old" :=
  (pythonpath_prepends_config_dir
    (Config.mk "" "" "" "" "" "" "" [] "/old")
    (Oracle.mk none (fun _ => true))
    "/app/config:/old" (by decide)).1

theorem filter_of_sub {α} (p q : α → Bool) (l : List α)
    (h : ∀ a, p a = true → q a = true) :
    (l.filter q).filter p = l.filter p := by
  induction l with
  | nil => rfl
  | cons b t ih =>
    by_cases hq : q b = true
    · simp [List.filter_cons, hq, ih]
    · have hp : p b = false := by
        cases hv : p b
        · rfl
        · exact absurd (h b hv) hq
      simp [List.filter_cons, hq, hp, ih]

theorem mem_planned_url (c : Config) (b2 dl : String) (a : Attempt)
    (h : a ∈ plannedAttempts c b2 dl) : a.url ≠ "" := by
  unfold plannedAttempts at h
  simp only [List.mem_append, List.mem_map, List.mem_filter] at h
  rcases h with (h | ⟨p, hp, rfl⟩) | ⟨p, hp, rfl⟩
  · by_cases hl : (c.litellmConfigUrl == "") = true
    · simp [hl] at h
    · rw [Bool.not_eq_true] at hl
      simp only [hl, Bool.not_false, if_true, List.mem_singleton] at h
      subst h
      show c.litellmConfigUrl ≠ ""
      intro he
      rw [he] at hl
      exact absurd hl (by decide)
  · have h2 : (!(p.2 == "")) = true := by
      have hpc := hp.2
      unfold isConfigVar at hpc
      rw [Bool.and_eq_true] at hpc
      exact hpc.2
    show p.2 ≠ ""
    intro he
    rw [he] at h2
    exact absurd h2 (by decide)
  · have h2 : (!(p.2 == "")) = true := by
      have hpc := hp.2
      unfold isHandlerVar at hpc
      rw [Bool.and_eq_true] at hpc
      exact hpc.2
    show p.2 ≠ ""
    intro he
    rw [he] at h2
    exact absurd h2 (by decide)

/-- C10: an environment variable matching a fetch pattern whose value is
empty produces no fetch attempt: deleting all empty-valued variables from
the environment leaves the whole run unchanged, and no planned or
attempted fetch ever has an empty URL (in particular an empty
`LITELLM_CONFIG_URL` is not fetched); the bootstrap otherwise proceeds
normally. -/
theorem empty_value_vars_ignored (c : Config) (o : Oracle) :
    run { c with envVars := c.envVars.filter (fun p => !(p.2 == "")) } o = run c o ∧
    (∀ a ∈ (run c o).planned, a.url ≠ "") ∧
    (∀ a ∈ (run c o).attempts, a.url ≠ "") := by
  obtain ⟨cd, ah, lu, bk, b2k, ba, b2a, ev, pp⟩ := c
  have himp1 : ∀ a : String × String, isConfigVar a = true → (!(a.2 == "")) = true := by
    intro a ha
    unfold isConfigVar at ha
    rw [Bool.and_eq_true] at ha
    exact ha.2
  have himp2 : ∀ a : String × String, isHandlerVar a = true → (!(a.2 == "")) = true := by
    intro a ha
    unfold isHandlerVar at ha
    rw [Bool.and_eq_true] at ha
    exact ha.2
  have hplan : ∀ b2 dl,
      plannedAttempts
        (Config.mk cd ah lu bk b2k ba b2a (ev.filter (fun p => !(p.2 == ""))) pp) b2 dl
        = plannedAttempts (Config.mk cd ah lu bk b2k ba b2a ev pp) b2 dl := by
    intro b2 dl
    unfold plannedAttempts
    dsimp only
    rw [filter_of_sub isConfigVar _ ev himp1, filter_of_sub isHandlerVar _ ev himp2]
  refine ⟨?_, ?_, ?_⟩
  · show run (Config.mk cd ah lu bk b2k ba b2a (ev.filter (fun p => !(p.2 == ""))) pp) o
        = run (Config.mk cd ah lu bk b2k ba b2a ev pp) o
    have hfin : ∀ (n : Nat) (b2 dl : String),
        finishFetches
            (Config.mk cd ah lu bk b2k ba b2a (ev.filter (fun p => !(p.2 == ""))) pp) o n b2 dl
          = finishFetches (Config.mk cd ah lu bk b2k ba b2a ev pp) o n b2 dl := by
      intro n b2 dl
      unfold finishFetches
      rw [hplan]
    have hek : effKeyId (Config.mk cd ah lu bk b2k ba b2a (ev.filter (fun p => !(p.2 == ""))) pp)
        = effKeyId (Config.mk cd ah lu bk b2k ba b2a ev pp) := rfl
    have hea : effAppKey (Config.mk cd ah lu bk b2k ba b2a (ev.filter (fun p => !(p.2 == ""))) pp)
        = effAppKey (Config.mk cd ah lu bk b2k ba b2a ev pp) := rfl
    unfold run
    rw [hek, hea]
    split
    · exact hfin 0 "" ""
    · split
      · rfl
      · split
        · rfl
        · dsimp only
          split
          · rfl
          · exact hfin 1 _ _
  · intro a ha
    rcases run_cases (Config.mk cd ah lu bk b2k ba b2a ev pp) o with ⟨n, b2, dl, heq⟩ | ⟨_, hp, _⟩
    · rw [heq] at ha
      exact mem_planned_url _ b2 dl a ha
    · rw [hp] at ha
      cases ha
  · intro a ha
    rcases run_cases (Config.mk cd ah lu bk b2k ba b2a ev pp) o with ⟨n, b2, dl, heq⟩ | ⟨hat, _, _⟩
    · rw [heq] at ha
      exact mem_planned_url _ b2 dl a (runFetches_mem _ _ _ ha)
    · rw [hat] at ha
      cases ha

theorem empty_value_vars_ignored_witness :
    run { Config.mk "" "" "" "" "" "" ""
          [("CONFIG_URL_A", ""), ("CONFIG_URL_B", "https://x/b.yaml")] "" with
        envVars := ([("CONFIG_URL_A", ""), ("CONFIG_URL_B", "https://x/b.yaml")] :
          List (String × String)).filter (fun p => !(p.2 == "")) }
      (Oracle.mk none (fun _ => true))
      = run (Config.mk "" "" "" "" "" "" ""
          [("CONFIG_URL_A", ""), ("CONFIG_URL_B", "https://x/b.yaml")] "")
        (Oracle.mk none (fun _ => true)) ∧
    (Attempt.mk "https://x/b.yaml" "/app/config/b.yaml" none).url ≠ "" :=
  And.intro
    (empty_value_vars_ignored
      (Config.mk "" "" "" "" "" "" ""
        [("CONFIG_URL_A", ""), ("CONFIG_URL_B", "https://x/b.yaml")] "")
      (Oracle.mk none (fun _ => true))).1
    ((empty_value_vars_ignored
      (Config.mk "" "" "" "" "" "" ""
        [("CONFIG_URL_A", ""), ("CONFIG_URL_B", "https://x/b.yaml")] "")
      (Oracle.mk none (fun _ => true))).2.2
      (Attempt.mk "https://x/b.yaml" "/app/config/b.yaml" none) (by decide))

end CloudRun
